import Mathlib

/-!
Shallow embedding of `src/CartParser.js`: a CSV shopping-cart parser with a
fixed three-column schema, a schema-driven validator producing positional
error records, a line-to-item converter and a totalling step.

Modelling conventions:
* JS strings are `String`; `String.prototype.split` on the regexes `/\n/`
  and `/,/` is `jsSplit` on the corresponding character; `trim` is `jsTrim`
  over the common whitespace characters.
* JS numbers are modelled exactly as rationals; a JS number that may be NaN
  is `Option ℚ` with `none` for NaN.  `Number(string)` coercion is
  `jsNumber`, modelling standard decimal notation (optional sign, integer
  and fractional digits, optional exponent), the empty string coercing
  to `0`, and everything else to NaN.
* `validate` crashes with a TypeError in JS when the input has no non-empty
  line (`lines[0]` is `undefined` and `.split` is called on it); the model
  returns `Option (List ValidationError)` with `none` for that crash, which
  `parse` propagates.
* The external collaborators are outside the model: `readFile` (so `parse`
  takes the file contents directly), the uuid source (so `CartItem` carries
  no `id` field) and the diagnostic sink (`console.error`).
-/

/-- The whitespace characters removed by `trim` for the inputs this parser
deals with. -/
def isJsSpace (c : Char) : Bool :=
  c = ' ' || c = '\t' || c = '\n' || c = '\r' || c = '\x0b' || c = '\x0c'

/-- `trim` on a character list: drop whitespace from both ends. -/
def trimChars (l : List Char) : List Char :=
  ((l.dropWhile isJsSpace).reverse.dropWhile isJsSpace).reverse

/-- JS `String.prototype.trim`. -/
def jsTrim (s : String) : String :=
  String.mk (trimChars s.toList)

/-- Split a character list at every occurrence of `sep`
(JS `split` keeps empty segments). -/
def splitCharAux (sep : Char) : List Char → List Char → List (List Char)
  | [], acc => [acc.reverse]
  | c :: cs, acc =>
    if c = sep then acc.reverse :: splitCharAux sep cs []
    else splitCharAux sep cs (c :: acc)

/-- JS `String.prototype.split` on a single-character separator
(the source only splits on `/\n/` and `/,/`). -/
def jsSplit (sep : Char) (s : String) : List String :=
  (splitCharAux sep s.toList []).map String.mk

/-- `contents.split(/\n/).filter(l => l)`: the only falsy string is `""`. -/
def nonEmptyLines (contents : String) : List String :=
  (jsSplit '\n' contents).filter (fun l => l ≠ "")

/-- Numeric value of a digit character. -/
def digitVal (c : Char) : Nat := c.toNat - '0'.toNat

/-- Value of a digit string read in base 10 (`[]` reads as `0`). -/
def digitsVal (l : List Char) : Nat :=
  l.foldl (fun a c => a * 10 + digitVal c) 0

/-- Split a character list at the first character satisfying `p`:
the prefix before it and, when found, the remainder after it. -/
def breakAt (p : Char → Bool) : List Char → List Char × Option (List Char)
  | [] => ([], none)
  | c :: cs =>
    if p c then ([], some cs)
    else
      let r := breakAt p cs
      (c :: r.1, r.2)

/-- Decimal mantissa: `digits`, `digits.digits`, `digits.` or `.digits`
(at least one digit overall); anything else is NaN.  The value is returned
as a numerator together with a power-of-ten scale, so the rational is built
with a single `mkRat` and stays kernel-evaluable. -/
def parseMantissa (l : List Char) : Option (Nat × Nat) :=
  let p := breakAt (fun c => c = '.') l
  let ip := p.1
  let fp := p.2.getD []
  if ip.all Char.isDigit && fp.all Char.isDigit && (!ip.isEmpty || !fp.isEmpty) then
    some (digitsVal ip * 10 ^ fp.length + digitsVal fp, fp.length)
  else none

/-- Exponent part after `e`/`E`: optionally signed nonempty digit string. -/
def parseExp (l : List Char) : Option Int :=
  match l with
  | [] => none
  | '+' :: ds => if !ds.isEmpty && ds.all Char.isDigit then some (digitsVal ds) else none
  | '-' :: ds => if !ds.isEmpty && ds.all Char.isDigit then some (-(digitsVal ds : Int)) else none
  | ds => if ds.all Char.isDigit then some (digitsVal ds) else none

/-- Numeric value of mantissa `m` scaled by `10 ^ e`. -/
def applyExp (m : Nat × Nat) (e : Int) : ℚ :=
  mkRat (m.1 * 10 ^ e.toNat) (10 ^ (m.2 + (-e).toNat))

/-- Unsigned decimal numeral with optional exponent. -/
def parseUnsignedNum (l : List Char) : Option ℚ :=
  let q := breakAt (fun c => c = 'e' || c = 'E') l
  match q.2 with
  | none => (parseMantissa q.1).map (fun m => applyExp m 0)
  | some ex =>
    match parseMantissa q.1, parseExp ex with
    | some m, some e => some (applyExp m e)
    | _, _ => none

/-- JS `Number(string)`: trim, empty coerces to `0`, otherwise an optionally
signed decimal numeral; `none` is NaN. -/
def jsNumber (s : String) : Option ℚ :=
  match trimChars s.toList with
  | [] => some 0
  | '+' :: rest => parseUnsignedNum rest
  | '-' :: rest => (parseUnsignedNum rest).map (fun q => -q)
  | l => parseUnsignedNum l

/-- `this.ColumnType` of the source. -/
inductive ColumnType
  | STRING
  | NUMBER_POSITIVE
deriving DecidableEq

/-- `this.ErrorType` of the source. -/
inductive ErrorType
  | HEADER
  | ROW
  | CELL
deriving DecidableEq

/-- One column of `this.schema.columns`. -/
structure Column where
  name : String
  key : String
  type : ColumnType
deriving DecidableEq

/-- `this.schema.columns`: the fixed three-column schema. -/
def schemaColumns : List Column :=
  [⟨"Product name", "name", ColumnType.STRING⟩,
   ⟨"Price", "price", ColumnType.NUMBER_POSITIVE⟩,
   ⟨"Quantity", "quantity", ColumnType.NUMBER_POSITIVE⟩]

/-- A validation error record; `row` is `0` for the header and `i + 1` for
body row `i`, `column` is `-1` for row-level errors. -/
structure ValidationError where
  type : ErrorType
  row : Nat
  column : Int
  message : String
deriving DecidableEq

/-- `createError` of the source. -/
def createError (type : ErrorType) (row : Nat) (column : Int) (message : String) :
    ValidationError :=
  ⟨type, row, column, message⟩

/-- Run an indexed check over a list, concatenating the produced errors:
the loop `for (i; i < list.length; i++) errors.push(...)` of the source. -/
def forEachIdx {α β : Type} (f : Nat → α → List β) : Nat → List α → List β
  | _, [] => []
  | i, a :: as => f i a ++ forEachIdx f (i + 1) as

/-- One iteration of the header-check loop of `validate`: compare the token
at schema index `i` with the expected column name (a missing token is JS
`undefined`, which compares unequal to every name and prints as
`undefined`). -/
def checkHeader (headers : List String) (i : Nat) (col : Column) :
    List ValidationError :=
  if headers[i]? ≠ some col.name then
    [createError ErrorType.HEADER 0 i
      ("Expected header to be named \"" ++ col.name ++ "\" but received "
        ++ (headers[i]?).getD "undefined" ++ ".")]
  else []

/-- Header check of `validate`: split the header line on commas, trim each
token, and compare each schema index's token with the expected name. -/
def headerErrors (headersLine : String) : List ValidationError :=
  forEachIdx (checkHeader ((jsSplit ',' headersLine).map jsTrim)) 0 schemaColumns

/-- One iteration of the cell-check loop of `validate`: the check of column
`j` (with schema entry `col`) of a body row whose split-and-trimmed cells
are `cells` (the source only reaches this loop with `j` in bounds, so the
`getD` default is never consulted on the source's path). -/
def checkCell (rowIdx : Nat) (cell : String) (j : Nat) (col : Column) :
    List ValidationError :=
  match col.type with
  | ColumnType.STRING =>
    if cell = "" then
      [createError ErrorType.CELL rowIdx j
        ("Expected cell to be a nonempty string but received \"" ++ cell ++ "\".")]
    else []
  | ColumnType.NUMBER_POSITIVE =>
    match jsNumber cell with
    | none =>
      [createError ErrorType.CELL rowIdx j
        ("Expected cell to be a positive number but received \"" ++ cell ++ "\".")]
    | some q =>
      if q < 0 then
        [createError ErrorType.CELL rowIdx j
          ("Expected cell to be a positive number but received \"" ++ cell ++ "\".")]
      else []

/-- Cell checks of `validate` for one body row with at least as many cells
as schema columns: run `checkCell` on `cells[j]` for each schema column. -/
def cellCheck (rowIdx : Nat) (cells : List String) : List ValidationError :=
  forEachIdx (fun j col => checkCell rowIdx ((cells[j]?).getD "") j col) 0 schemaColumns

/-- Per-row check of `validate` on the already split and trimmed cells:
a short row yields one ROW error and skips the cell checks. -/
def rowCheckCells (rowIdx : Nat) (cells : List String) : List ValidationError :=
  if cells.length < schemaColumns.length then
    [createError ErrorType.ROW rowIdx (-1)
      ("Expected row to have " ++ toString schemaColumns.length
        ++ " cells but received " ++ toString cells.length ++ ".")]
  else cellCheck rowIdx cells

/-- Per-row check of `validate` on the raw body line. -/
def rowCheck (rowIdx : Nat) (line : String) : List ValidationError :=
  rowCheckCells rowIdx ((jsSplit ',' line).map jsTrim)

/-- `validate(contents)`.  `none` models the TypeError the source throws
when the input has no non-empty line (`lines[0]` is `undefined`). -/
def validate (contents : String) : Option (List ValidationError) :=
  match nonEmptyLines contents with
  | [] => none
  | headersLine :: bodyLines =>
    some (headerErrors headersLine
      ++ forEachIdx (fun i l => rowCheck (i + 1) l) 0 bodyLines)

/-- A cart item; the `id` field filled in from the external uuid source is
not modelled.  A field is `none` when the JS value is `undefined` (for
`name`) or NaN (for the numeric fields). -/
structure CartItem where
  name : Option String
  price : Option ℚ
  quantity : Option ℚ
deriving DecidableEq

/-- `parseLine` after the split-and-trim, keyed by the fixed schema:
`name` from cell 0 kept as a string, `price` and `quantity` from cells 1
and 2 coerced by `Number` (`Number(undefined)` is NaN). -/
def parseLineCells (values : List String) : CartItem :=
  { name := values[0]?
    price := (values[1]?).bind jsNumber
    quantity := (values[2]?).bind jsNumber }

/-- `parseLine(csvLine)`: split on commas, trim each cell, map cells onto
the schema keys. -/
def parseLine (csvLine : String) : CartItem :=
  parseLineCells ((jsSplit ',' csvLine).map jsTrim)

/-- JS `+` on possibly-NaN numbers. -/
def qadd : Option ℚ → Option ℚ → Option ℚ
  | some a, some b => some (a + b)
  | _, _ => none

/-- JS `*` on possibly-NaN numbers. -/
def qmul : Option ℚ → Option ℚ → Option ℚ
  | some a, some b => some (a * b)
  | _, _ => none

/-- `calcTotal(cartItems)`: `reduce((acc, cur) => acc + cur.price * cur.quantity, 0)`. -/
def calcTotal (cartItems : List CartItem) : Option ℚ :=
  cartItems.foldl (fun acc cur => qadd acc (qmul cur.price cur.quantity)) (some 0)

/-- `Number(total.toFixed(2))`: round to two decimal places. -/
def round2 (q : ℚ) : ℚ :=
  ((round (q * 100) : ℤ) : ℚ) / 100

/-- Result of a successful `parse`. -/
structure ParseResult where
  items : List CartItem
  total : Option ℚ
deriving DecidableEq

/-- `parse` applied to the file contents (the `readFile` collaborator is
outside the model): run `validate`, fail with the generic error when any
validation error exists, otherwise map the body lines through `parseLine`
and total them.  The outer `none` is the validation crash propagating. -/
def parse (contents : String) : Option (Except String ParseResult) :=
  (validate contents).map (fun validationErrors =>
    if validationErrors.length > 0 then Except.error "Validation failed!"
    else
      let lines := (nonEmptyLines contents).drop 1
      let items := lines.map parseLine
      let total := calcTotal items
      Except.ok { items := items, total := total.map round2 })

/-! ### Basic lemmas about the embedding -/

theorem forEachIdx_nil {α β : Type} (f : Nat → α → List β) (n : Nat) :
    forEachIdx f n [] = [] := rfl

theorem forEachIdx_cons {α β : Type} (f : Nat → α → List β) (n : Nat)
    (a : α) (as : List α) :
    forEachIdx f n (a :: as) = f n a ++ forEachIdx f (n + 1) as := rfl

theorem mem_forEachIdx {α β : Type} {f : Nat → α → List β} {n : Nat}
    {l : List α} {b : β} :
    b ∈ forEachIdx f n l ↔ ∃ i a, l[i]? = some a ∧ b ∈ f (n + i) a := by
  induction l generalizing n with
  | nil => simp [forEachIdx]
  | cons x xs ih =>
    simp only [forEachIdx_cons, List.mem_append, ih]
    constructor
    · rintro (hb | ⟨i, a, ha, hb⟩)
      · exact ⟨0, x, by simp, by simpa using hb⟩
      · exact ⟨i + 1, a, by simpa using ha, by
          have : n + 1 + i = n + (i + 1) := by omega
          rwa [this] at hb⟩
    · rintro ⟨i, a, ha, hb⟩
      cases i with
      | zero =>
        simp only [List.getElem?_cons_zero, Option.some.injEq] at ha
        subst ha
        exact Or.inl (by simpa using hb)
      | succ i =>
        refine Or.inr ⟨i, a, by simpa using ha, ?_⟩
        have : n + (i + 1) = n + 1 + i := by omega
        rwa [this] at hb

theorem qadd_zero_right (a : Option ℚ) : qadd a (some 0) = a := by
  cases a <;> simp [qadd]

theorem qadd_zero_left (a : Option ℚ) : qadd (some 0) a = a := by
  cases a <;> simp [qadd]

theorem qadd_assoc (a b c : Option ℚ) : qadd (qadd a b) c = qadd a (qadd b c) := by
  cases a <;> cases b <;> cases c <;> simp [qadd, add_assoc]

theorem qadd_comm (a b : Option ℚ) : qadd a b = qadd b a := by
  cases a <;> cases b <;> simp [qadd, add_comm]

theorem foldl_qadd_shift (p : CartItem → Option ℚ) (l : List CartItem) (a : Option ℚ) :
    l.foldl (fun acc cur => qadd acc (p cur)) a
      = qadd a (l.foldl (fun acc cur => qadd acc (p cur)) (some 0)) := by
  induction l generalizing a with
  | nil => simp [qadd_zero_right]
  | cons x xs ih =>
    simp only [List.foldl_cons]
    rw [ih (qadd a (p x)), ih (qadd (some 0) (p x)), qadd_zero_left, qadd_assoc]

theorem calcTotal_nil : calcTotal [] = some 0 := rfl

theorem calcTotal_cons (x : CartItem) (l : List CartItem) :
    calcTotal (x :: l) = qadd (qmul x.price x.quantity) (calcTotal l) := by
  unfold calcTotal
  simp only [List.foldl_cons]
  rw [foldl_qadd_shift, qadd_zero_left]

theorem calcTotal_perm {l₁ l₂ : List CartItem} (h : l₁.Perm l₂) :
    calcTotal l₁ = calcTotal l₂ := by
  induction h with
  | nil => rfl
  | cons x _ ih => rw [calcTotal_cons, calcTotal_cons, ih]
  | swap x y l =>
    rw [calcTotal_cons, calcTotal_cons, calcTotal_cons, calcTotal_cons,
      ← qadd_assoc, ← qadd_assoc, qadd_comm (qmul y.price y.quantity)]
  | trans _ _ ih₁ ih₂ => rw [ih₁, ih₂]

theorem calcTotal_eq_foldr (items : List CartItem) :
    calcTotal items
      = (items.map (fun it => qmul it.price it.quantity)).foldr qadd (some 0) := by
  induction items with
  | nil => rfl
  | cons x xs ih => rw [calcTotal_cons, ih]; simp

theorem forEachIdx_eq_nil_iff {α β : Type} {f : Nat → α → List β} {n : Nat}
    {l : List α} :
    forEachIdx f n l = [] ↔ ∀ i a, l[i]? = some a → f (n + i) a = [] := by
  induction l generalizing n with
  | nil => simp [forEachIdx]
  | cons x xs ih =>
    simp only [forEachIdx_cons, List.append_eq_nil, ih]
    constructor
    · rintro ⟨h0, hs⟩ i a ha
      cases i with
      | zero =>
        simp only [List.getElem?_cons_zero, Option.some.injEq] at ha
        subst ha; simpa using h0
      | succ i =>
        have := hs i a (by simpa using ha)
        rwa [show n + 1 + i = n + (i + 1) by omega] at this
    · intro h
      refine ⟨by simpa using h 0 x (by simp), fun i a ha => ?_⟩
      have := h (i + 1) a (by simpa using ha)
      rwa [show n + (i + 1) = n + 1 + i by omega] at this

theorem mem_checkHeader {e : ValidationError} {headers : List String}
    {i : Nat} {col : Column} (h : e ∈ checkHeader headers i col) :
    e.type = ErrorType.HEADER ∧ e.row = 0 := by
  unfold checkHeader at h
  split at h <;> simp_all [createError]

theorem mem_headerErrors {e : ValidationError} {hl : String}
    (h : e ∈ headerErrors hl) : e.type = ErrorType.HEADER ∧ e.row = 0 := by
  unfold headerErrors at h
  rw [mem_forEachIdx] at h
  obtain ⟨i, col, _, hb⟩ := h
  exact mem_checkHeader hb

theorem mem_checkCell {e : ValidationError} {r : Nat} {cell : String}
    {j : Nat} {col : Column} (h : e ∈ checkCell r cell j col) :
    e.type = ErrorType.CELL ∧ e.row = r ∧ e.column = (j : Int) := by
  unfold checkCell at h
  cases hty : col.type <;> rw [hty] at h
  · split at h <;> simp_all [createError]
  · rcases hn : jsNumber cell with _ | q <;> rw [hn] at h
    · simp_all [createError]
    · split at h <;> simp_all [createError]

theorem mem_cellCheck {e : ValidationError} {r : Nat} {cells : List String} :
    e ∈ cellCheck r cells ↔
      ∃ j col, schemaColumns[j]? = some col ∧
        e ∈ checkCell r ((cells[j]?).getD "") j col := by
  unfold cellCheck
  rw [mem_forEachIdx]
  simp

theorem mem_rowCheckCells {e : ValidationError} {r : Nat} {cells : List String}
    (h : e ∈ rowCheckCells r cells) : e.row = r := by
  unfold rowCheckCells at h
  split at h
  · simp_all [createError]
  · obtain ⟨j, col, _, hb⟩ := mem_cellCheck.mp h
    exact (mem_checkCell hb).2.1

theorem mem_rowCheck {e : ValidationError} {r : Nat} {line : String}
    (h : e ∈ rowCheck r line) : e.row = r :=
  mem_rowCheckCells h

theorem mem_bodyErrors {e : ValidationError} {n : Nat} {body : List String} :
    e ∈ forEachIdx (fun i l => rowCheck (i + 1) l) n body ↔
      ∃ i line, body[i]? = some line ∧ e ∈ rowCheck (n + i + 1) line := by
  rw [mem_forEachIdx]

theorem filter_bodyErrors {body : List String} {n i : Nat} {line : String}
    (h : body[i]? = some line) :
    (forEachIdx (fun k l => rowCheck (k + 1) l) n body).filter
        (fun e => e.row = n + i + 1)
      = rowCheck (n + i + 1) line := by
  induction body generalizing n i with
  | nil => simp at h
  | cons l ls ih =>
    rw [forEachIdx_cons, List.filter_append]
    cases i with
    | zero =>
      simp only [List.getElem?_cons_zero, Option.some.injEq] at h
      subst h
      rw [List.filter_eq_self.mpr (fun e he => by
        simp [mem_rowCheck he]), Nat.add_zero]
      rw [List.filter_eq_nil_iff.mpr (fun e he => by
        obtain ⟨k, l₂, _, hk⟩ := mem_bodyErrors.mp he
        have := mem_rowCheck hk
        simp only [this, decide_eq_true_eq]
        omega), List.append_nil]
    | succ i =>
      rw [List.filter_eq_nil_iff.mpr (fun e he => by
        have := mem_rowCheck he
        simp only [this, decide_eq_true_eq]
        omega), List.nil_append]
      have := ih (n := n + 1) (i := i) (by simpa using h)
      rwa [show n + 1 + i + 1 = n + (i + 1) + 1 by omega] at this

theorem validate_eq {contents hl : String} {body : List String}
    (hsplit : nonEmptyLines contents = hl :: body) :
    validate contents = some (headerErrors hl
      ++ forEachIdx (fun i l => rowCheck (i + 1) l) 0 body) := by
  unfold validate
  rw [hsplit]

theorem validate_nil_rows {contents hl : String} {body : List String}
    (hsplit : nonEmptyLines contents = hl :: body)
    (h : validate contents = some []) :
    ∀ i line, body[i]? = some line → rowCheck (i + 1) line = [] := by
  rw [validate_eq hsplit] at h
  simp only [Option.some.injEq, List.append_eq_nil] at h
  intro i line hi
  have := forEachIdx_eq_nil_iff.mp h.2 i line hi
  simpa using this

theorem parse_of_validate_nil {contents : String}
    (h : validate contents = some []) :
    parse contents = some (Except.ok
      { items := ((nonEmptyLines contents).drop 1).map parseLine
        total := (calcTotal (((nonEmptyLines contents).drop 1).map parseLine)).map
          round2 }) := by
  simp [parse, h]

theorem parse_of_validate_err {contents : String} {e : ValidationError}
    {es : List ValidationError} (h : validate contents = some (e :: es)) :
    parse contents = some (Except.error "Validation failed!") := by
  simp [parse, h]

theorem checkCell_number_nil {r : Nat} {cell : String} {j : Nat} {col : Column}
    (hty : col.type = ColumnType.NUMBER_POSITIVE)
    (h : checkCell r cell j col = []) :
    ∃ q, jsNumber cell = some q ∧ 0 ≤ q := by
  unfold checkCell at h
  split at h
  · rename_i heq
    rw [hty] at heq
    cases heq
  · split at h
    · simp at h
    · rename_i q heq
      split at h
      · simp at h
      · rename_i hq0
        exact ⟨q, heq, not_lt.mp hq0⟩

theorem rowCheckCells_nil_fields {r : Nat} {cells : List String}
    (h : rowCheckCells r cells = []) :
    ∃ c1 c2 p q, cells[1]? = some c1 ∧ cells[2]? = some c2 ∧
      jsNumber c1 = some p ∧ 0 ≤ p ∧ jsNumber c2 = some q ∧ 0 ≤ q := by
  unfold rowCheckCells at h
  split at h
  · simp at h
  · rename_i hlen
    rcases cells with _ | ⟨c0, _ | ⟨c1, _ | ⟨c2, rest⟩⟩⟩
    · exact absurd hlen (by simp [schemaColumns])
    · exact absurd hlen (by simp [schemaColumns])
    · exact absurd hlen (by simp [schemaColumns])
    · simp only [cellCheck, schemaColumns, forEachIdx, List.getElem?_cons_zero,
        List.getElem?_cons_succ, Option.getD_some, List.append_eq_nil,
        List.append_nil] at h
      obtain ⟨-, h1, h2⟩ := h
      obtain ⟨p, hp, hp0⟩ := checkCell_number_nil rfl h1
      obtain ⟨q, hq, hq0⟩ := checkCell_number_nil rfl h2
      exact ⟨c1, c2, p, q, by simp, by simp, hp, hp0, hq, hq0⟩

theorem rowCheck_nil_item {r : Nat} {line : String} (h : rowCheck r line = []) :
    ∃ p q, (parseLine line).price = some p ∧ 0 ≤ p ∧
      (parseLine line).quantity = some q ∧ 0 ≤ q := by
  obtain ⟨c1, c2, p, q, h1, h2, hp, hp0, hq, hq0⟩ := rowCheckCells_nil_fields h
  exact ⟨p, q, by simp [parseLine, parseLineCells, h1, hp], hp0,
    by simp [parseLine, parseLineCells, h2, hq], hq0⟩

theorem calcTotal_defined (items : List CartItem)
    (h : ∀ it ∈ items, it.price ≠ none ∧ it.quantity ≠ none) :
    calcTotal items
      = some ((items.map (fun it => it.price.getD 0 * it.quantity.getD 0)).sum) := by
  induction items with
  | nil => simp [calcTotal_nil]
  | cons x xs ih =>
    rw [calcTotal_cons, ih (fun it hit => h it (List.mem_cons_of_mem _ hit))]
    obtain ⟨hp, hq⟩ := h x (List.mem_cons_self _ _)
    rcases hxp : x.price with _ | p
    · exact absurd hxp hp
    rcases hxq : x.quantity with _ | q
    · exact absurd hxq hq
    simp [qmul, qadd, hxp, hxq]

theorem mem_validate_of_rowCheck {contents hl : String} {body : List String}
    (hsplit : nonEmptyLines contents = hl :: body)
    {i : Nat} {line : String} (hline : body[i]? = some line)
    {e : ValidationError} (he : e ∈ rowCheck (i + 1) line) :
    ∃ errs, validate contents = some errs ∧ e ∈ errs :=
  ⟨_, validate_eq hsplit,
    List.mem_append_right _ (mem_bodyErrors.mpr ⟨i, line, hline, by simpa using he⟩)⟩

theorem rowCheck_mem_of_cellCheck {r : Nat} {line : String}
    (hlen : ¬ ((jsSplit ',' line).map jsTrim).length < schemaColumns.length)
    {e : ValidationError} (he : e ∈ cellCheck r ((jsSplit ',' line).map jsTrim)) :
    e ∈ rowCheck r line := by
  unfold rowCheck rowCheckCells
  rw [if_neg hlen]
  exact he

theorem mem_cellCheck_of {r : Nat} {cells : List String} {j : Nat} {col : Column}
    (hcol : schemaColumns[j]? = some col) {e : ValidationError}
    (he : e ∈ checkCell r ((cells[j]?).getD "") j col) :
    e ∈ cellCheck r cells :=
  mem_cellCheck.mpr ⟨j, col, hcol, he⟩

theorem checkCell_string_empty {r : Nat} {j : Nat} {col : Column}
    (hty : col.type = ColumnType.STRING) :
    createError ErrorType.CELL r j
        "Expected cell to be a nonempty string but received \"\"."
      ∈ checkCell r "" j col := by
  simp only [checkCell, hty]
  simp [createError]

theorem checkCell_number_bad {r : Nat} {cell : String} {j : Nat} {col : Column}
    (hty : col.type = ColumnType.NUMBER_POSITIVE)
    (hbad : jsNumber cell = none ∨ ∃ q, jsNumber cell = some q ∧ q < 0) :
    createError ErrorType.CELL r j
        ("Expected cell to be a positive number but received \"" ++ cell ++ "\".")
      ∈ checkCell r cell j col := by
  rcases hbad with hnone | ⟨q, hq, hq0⟩
  · simp [checkCell, hty, hnone]
  · simp [checkCell, hty, hq, hq0]

theorem checkCell_number_ok {r : Nat} {cell : String} {j : Nat} {col : Column}
    (hty : col.type = ColumnType.NUMBER_POSITIVE) {q : ℚ}
    (hq : jsNumber cell = some q) (hq0 : ¬ q < 0) :
    checkCell r cell j col = [] := by
  simp [checkCell, hty, hq, hq0]

theorem rowCheck_type_of_long {r : Nat} {line : String}
    (hlen : ¬ ((jsSplit ',' line).map jsTrim).length < schemaColumns.length)
    {e : ValidationError} (he : e ∈ rowCheck r line) :
    e.type = ErrorType.CELL := by
  unfold rowCheck rowCheckCells at he
  rw [if_neg hlen] at he
  obtain ⟨j, col, _, hb⟩ := mem_cellCheck.mp he
  exact (mem_checkCell hb).1

/-! ### Claim theorems -/

/-- C2: the claim says `validate` is total — it returns a (possibly empty)
error list on every input, including the empty string and strings of only
newlines.  The code is not: on an input with no non-empty line, `lines[0]`
is `undefined` and calling `.split` on it throws a TypeError (modelled as
`none`), so `validate` raises instead of returning a list on exactly those
inputs.  On every input with at least one non-empty line it does return a
list. -/
theorem validate_crashes_without_header :
    validate "" = none ∧ validate "\n\n" = none ∧
    ∀ contents : String, nonEmptyLines contents ≠ [] →
      ∃ errs, validate contents = some errs := by
  refine ⟨by decide, by decide, fun contents h => ?_⟩
  rcases hn : nonEmptyLines contents with _ | ⟨hl, body⟩
  · exact absurd hn h
  · exact ⟨_, validate_eq hn⟩

/-- C2 witness: the total-on-nonempty part applied to a concrete input. -/
theorem validate_crashes_without_header_witness :
    ∃ errs, validate "Product name,Price,Quantity\nMollis consequat,9.00,2"
      = some errs :=
  validate_crashes_without_header.2.2 _ (by decide)

/-- C3: `parse` fails with the single generic `"Validation failed!"` error
exactly when `validate` returns a non-empty error list (the failure value
carries no detailed list), and whenever `validate` returns an empty list,
`parse` returns a `ParseResult`. -/
theorem parse_fail_iff (contents : String) :
    (parse contents = some (Except.error "Validation failed!") ↔
      ∃ e es, validate contents = some (e :: es)) ∧
    (validate contents = some [] →
      ∃ r, parse contents = some (Except.ok r)) := by
  constructor
  · constructor
    · intro hp
      rcases hv : validate contents with _ | errs
      · simp [parse, hv] at hp
      · rcases errs with _ | ⟨e, es⟩
        · rw [parse_of_validate_nil hv] at hp
          simp at hp
        · exact ⟨e, es, rfl⟩
    · rintro ⟨e, es, hv⟩
      exact parse_of_validate_err hv
  · intro hv
    exact ⟨_, parse_of_validate_nil hv⟩

/-- C3 witness: on a concrete valid input, `parse` returns a result. -/
theorem parse_fail_iff_witness :
    ∃ r, parse "Product name,Price,Quantity\nMollis consequat,9.00,2"
      = some (Except.ok r) :=
  (parse_fail_iff _).2 (by decide)

/-- C7: `calcTotal` of the empty sequence is `0`; `calcTotal` is the
`qadd`-sum of `price * quantity` over the items (and on items with defined
fields it is `some` of the rational sum of the products); and `calcTotal`
is invariant under every permutation of its input. -/
theorem calcTotal_spec :
    calcTotal [] = some 0 ∧
    (∀ items : List CartItem,
      calcTotal items
        = (items.map (fun it => qmul it.price it.quantity)).foldr qadd (some 0)) ∧
    (∀ items : List CartItem,
      (∀ it ∈ items, it.price ≠ none ∧ it.quantity ≠ none) →
      calcTotal items
        = some ((items.map (fun it => it.price.getD 0 * it.quantity.getD 0)).sum)) ∧
    (∀ l₁ l₂ : List CartItem, l₁.Perm l₂ → calcTotal l₁ = calcTotal l₂) :=
  ⟨calcTotal_nil, calcTotal_eq_foldr, calcTotal_defined,
    fun _ _ h => calcTotal_perm h⟩

/-- C7 witness: permutation invariance applied to a concrete swap. -/
theorem calcTotal_spec_witness :
    calcTotal [⟨some "a", some 1, some 2⟩, ⟨some "b", some 3, some 4⟩]
      = calcTotal [⟨some "b", some 3, some 4⟩, ⟨some "a", some 1, some 2⟩] :=
  calcTotal_spec.2.2.2 _ _ (List.Perm.swap _ _ _)

/-- C1: on every contents whose validation yields zero errors, `parse`
returns a result whose items are exactly the non-empty body lines (all
non-empty lines after the first) converted in file order — in particular
one item per body line — and whose total is the sum of `price * quantity`
over those items rounded to 2 decimal places. -/
theorem parse_valid (contents : String) (h : validate contents = some []) :
    ∃ r total, parse contents = some (Except.ok r) ∧
      r.items = ((nonEmptyLines contents).drop 1).map parseLine ∧
      r.items.length = ((nonEmptyLines contents).drop 1).length ∧
      calcTotal r.items = some total ∧
      r.total = some (round2 total) := by
  rcases hn : nonEmptyLines contents with _ | ⟨hl, body⟩
  · simp [validate, hn] at h
  · have hrows := validate_nil_rows hn h
    have hdef : ∀ it ∈ body.map parseLine, it.price ≠ none ∧ it.quantity ≠ none := by
      intro it hit
      obtain ⟨line, hline, rfl⟩ := List.mem_map.mp hit
      obtain ⟨i, hi⟩ := List.getElem?_of_mem hline
      obtain ⟨p, q, hp, -, hq, -⟩ := rowCheck_nil_item (hrows i line hi)
      exact ⟨by simp [hp], by simp [hq]⟩
    have htot := calcTotal_defined _ hdef
    refine ⟨_, ((body.map parseLine).map
        (fun it => it.price.getD 0 * it.quantity.getD 0)).sum,
      parse_of_validate_nil h, ?_, ?_, ?_, ?_⟩
    · simp [hn]
    · simp [hn]
    · simp only [hn, List.drop_succ_cons, List.drop_zero]
      exact htot
    · simp only [hn, List.drop_succ_cons, List.drop_zero]
      rw [htot]
      rfl

/-- C1 witness: the theorem applied to a concrete valid file. -/
theorem parse_valid_witness :
    ∃ r total,
      parse "Product name,Price,Quantity\nMollis consequat,9.00,2"
        = some (Except.ok r) ∧
      r.items = ((nonEmptyLines
        "Product name,Price,Quantity\nMollis consequat,9.00,2").drop 1).map
          parseLine ∧
      r.items.length = ((nonEmptyLines
        "Product name,Price,Quantity\nMollis consequat,9.00,2").drop 1).length ∧
      calcTotal r.items = some total ∧
      r.total = some (round2 total) :=
  parse_valid _ (by decide)

/-- C8: a `ParseResult` is produced only when validation yields zero
errors, and on every contents accepted by `validate` each item of the
result has a defined, non-negative price and quantity (validation checked
the very cells `parseLine` coerces, with the same split, trim and numeric
coercion). -/
theorem parse_result_invariant :
    (∀ contents r, parse contents = some (Except.ok r) →
      validate contents = some []) ∧
    (∀ contents, validate contents = some [] →
      ∃ r, parse contents = some (Except.ok r) ∧
        ∀ it ∈ r.items, (∃ p, it.price = some p ∧ 0 ≤ p) ∧
          (∃ q, it.quantity = some q ∧ 0 ≤ q)) := by
  constructor
  · intro contents r hp
    rcases hv : validate contents with _ | errs
    · simp [parse, hv] at hp
    · rcases errs with _ | ⟨e, es⟩
      · rfl
      · rw [parse_of_validate_err hv] at hp
        simp at hp
  · intro contents h
    rcases hn : nonEmptyLines contents with _ | ⟨hl, body⟩
    · simp [validate, hn] at h
    · have hrows := validate_nil_rows hn h
      refine ⟨_, parse_of_validate_nil h, ?_⟩
      intro it hit
      rw [hn] at hit
      simp only [List.drop_succ_cons, List.drop_zero] at hit
      obtain ⟨line, hline, rfl⟩ := List.mem_map.mp hit
      obtain ⟨i, hi⟩ := List.getElem?_of_mem hline
      obtain ⟨p, q, hp, hp0, hq, hq0⟩ := rowCheck_nil_item (hrows i line hi)
      exact ⟨⟨p, hp, hp0⟩, ⟨q, hq, hq0⟩⟩

/-- C8 witness: the invariant applied to a concrete valid file. -/
theorem parse_result_invariant_witness :
    ∃ r, parse "Product name,Price,Quantity\nMollis consequat,9.00,2"
        = some (Except.ok r) ∧
      ∀ it ∈ r.items, (∃ p, it.price = some p ∧ 0 ≤ p) ∧
        (∃ q, it.quantity = some q ∧ 0 ≤ q) :=
  parse_result_invariant.2 _ (by decide)

/-- C4: whenever the header line, split on commas and trimmed, has an
`i`-th token different from the `i`-th schema column name, `validate`
reports a HEADER error at row 0, column `i`, with the exact
expected/received message; the three positions are checked independently,
so one input can collect several HEADER errors (witnessed by the concrete
two-mismatch input in the second conjunct). -/
theorem validate_header_mismatch :
    (∀ (contents hl t : String) (body : List String) (i : Nat) (col : Column),
      nonEmptyLines contents = hl :: body →
      schemaColumns[i]? = some col →
      ((jsSplit ',' hl).map jsTrim)[i]? = some t →
      t ≠ col.name →
      ∃ errs, validate contents = some errs ∧
        createError ErrorType.HEADER 0 i
          ("Expected header to be named \"" ++ col.name ++ "\" but received "
            ++ t ++ ".") ∈ errs) ∧
    validate "A,B,Quantity\nx,1,2"
      = some [createError ErrorType.HEADER 0 0
          "Expected header to be named \"Product name\" but received A.",
        createError ErrorType.HEADER 0 1
          "Expected header to be named \"Price\" but received B."] := by
  constructor
  · intro contents hl t body i col hsplit hcol ht hne
    refine ⟨_, validate_eq hsplit, List.mem_append_left _ ?_⟩
    unfold headerErrors
    rw [mem_forEachIdx]
    refine ⟨i, col, hcol, ?_⟩
    simp only [Nat.zero_add]
    simp [checkHeader, ht, hne]
  · decide

/-- C4 witness: a mismatched `Price` header token reported at (0, 1). -/
theorem validate_header_mismatch_witness :
    ∃ errs,
      validate "Product name,Priiice,Quantity\nMollis consequat,9.00,2"
        = some errs ∧
      createError ErrorType.HEADER 0 1
        ("Expected header to be named \"" ++ "Price" ++ "\" but received "
          ++ "Priiice" ++ ".") ∈ errs :=
  validate_header_mismatch.1
    "Product name,Priiice,Quantity\nMollis consequat,9.00,2"
    "Product name,Priiice,Quantity" "Priiice" ["Mollis consequat,9.00,2"] 1
    ⟨"Price", "price", ColumnType.NUMBER_POSITIVE⟩
    (by decide) (by decide) (by decide) (by decide)

/-- C5: a body row that splits and trims to fewer than 3 cells contributes
exactly one error for its row — a ROW error at (rowIndex, -1) with the
exact cell-count message — and no CELL errors. -/
theorem validate_short_row :
    ∀ (contents hl line : String) (body : List String) (i : Nat),
      nonEmptyLines contents = hl :: body →
      body[i]? = some line →
      ((jsSplit ',' line).map jsTrim).length < 3 →
      ∃ errs, validate contents = some errs ∧
        errs.filter (fun e => e.row = i + 1)
          = [createError ErrorType.ROW (i + 1) (-1)
              ("Expected row to have 3 cells but received "
                ++ toString ((jsSplit ',' line).map jsTrim).length ++ ".")] := by
  intro contents hl line body i hsplit hline hshort
  refine ⟨_, validate_eq hsplit, ?_⟩
  rw [List.filter_append]
  rw [List.filter_eq_nil_iff.mpr (fun e he => by
    have h0 := (mem_headerErrors he).2
    simp only [h0, decide_eq_true_eq]
    omega)]
  rw [List.nil_append]
  have hfb := @filter_bodyErrors body 0 i line hline
  simp only [Nat.zero_add] at hfb
  rw [hfb]
  unfold rowCheck rowCheckCells
  rw [if_pos (by simpa [schemaColumns] using hshort)]
  have h3 : toString schemaColumns.length = "3" := by decide
  rw [h3]
  have hcat : "Expected row to have " ++ "3" ++ " cells but received "
      = "Expected row to have 3 cells but received " := by decide
  rw [hcat]

/-- C5 witness: a two-cell body row reported as a lone ROW error. -/
theorem validate_short_row_witness :
    ∃ errs,
      validate "Product name,Price,Quantity\nMollis consequat,9.00"
        = some errs ∧
      errs.filter (fun e => e.row = 0 + 1)
        = [createError ErrorType.ROW (0 + 1) (-1)
            ("Expected row to have 3 cells but received "
              ++ toString ((jsSplit ',' "Mollis consequat,9.00").map jsTrim).length
              ++ ".")] :=
  validate_short_row "Product name,Price,Quantity\nMollis consequat,9.00"
    "Product name,Price,Quantity" "Mollis consequat,9.00"
    ["Mollis consequat,9.00"] 0 (by decide) (by decide) (by decide)

/-- C6: on a body row with at least 3 cells, an empty trimmed cell in the
STRING column yields a CELL error at (row, 0), and a cell in a
POSITIVE_NUMBER column whose coercion is NaN or negative yields a CELL
error at (row, column) with the exact message; in particular the file whose
single body row is `Mollis consequat,2,-10` yields exactly one CELL error
at (1, 2) with the exact `-10` message. -/
theorem validate_cell_errors :
    (∀ (contents hl line : String) (body : List String) (i : Nat),
      nonEmptyLines contents = hl :: body →
      body[i]? = some line →
      3 ≤ ((jsSplit ',' line).map jsTrim).length →
      ((jsSplit ',' line).map jsTrim)[0]? = some "" →
      ∃ errs, validate contents = some errs ∧
        createError ErrorType.CELL (i + 1) 0
          "Expected cell to be a nonempty string but received \"\"." ∈ errs) ∧
    (∀ (contents hl line cell : String) (body : List String) (i j : Nat),
      nonEmptyLines contents = hl :: body →
      body[i]? = some line →
      3 ≤ ((jsSplit ',' line).map jsTrim).length →
      (j = 1 ∨ j = 2) →
      ((jsSplit ',' line).map jsTrim)[j]? = some cell →
      (jsNumber cell = none ∨ ∃ q, jsNumber cell = some q ∧ q < 0) →
      ∃ errs, validate contents = some errs ∧
        createError ErrorType.CELL (i + 1) j
          ("Expected cell to be a positive number but received \"" ++ cell
            ++ "\".") ∈ errs) ∧
    validate "Product name,Price,Quantity\nMollis consequat,2,-10"
      = some [createError ErrorType.CELL 1 2
          "Expected cell to be a positive number but received \"-10\"."] := by
  refine ⟨?_, ?_, by decide⟩
  · intro contents hl line body i hsplit hline hlen h0
    refine mem_validate_of_rowCheck hsplit hline ?_
    refine rowCheck_mem_of_cellCheck (by simp [schemaColumns] at hlen ⊢; omega) ?_
    refine mem_cellCheck.mpr
      ⟨0, ⟨"Product name", "name", ColumnType.STRING⟩, by decide, ?_⟩
    rw [h0, Option.getD_some]
    exact checkCell_string_empty rfl
  · intro contents hl line cell body i j hsplit hline hlen hj hcell hbad
    refine mem_validate_of_rowCheck hsplit hline ?_
    refine rowCheck_mem_of_cellCheck (by simp [schemaColumns] at hlen ⊢; omega) ?_
    rcases hj with rfl | rfl
    · refine mem_cellCheck.mpr
        ⟨1, ⟨"Price", "price", ColumnType.NUMBER_POSITIVE⟩, by decide, ?_⟩
      rw [hcell, Option.getD_some]
      exact checkCell_number_bad rfl hbad
    · refine mem_cellCheck.mpr
        ⟨2, ⟨"Quantity", "quantity", ColumnType.NUMBER_POSITIVE⟩, by decide, ?_⟩
      rw [hcell, Option.getD_some]
      exact checkCell_number_bad rfl hbad

/-- C6 witness: the negative quantity `-10` reported at (1, 2). -/
theorem validate_cell_errors_witness :
    ∃ errs,
      validate "Product name,Price,Quantity\nMollis consequat,2,-10"
        = some errs ∧
      createError ErrorType.CELL (0 + 1) 2
        ("Expected cell to be a positive number but received \"" ++ "-10"
          ++ "\".") ∈ errs :=
  validate_cell_errors.2.1
    "Product name,Price,Quantity\nMollis consequat,2,-10"
    "Product name,Price,Quantity" "Mollis consequat,2,-10" "-10"
    ["Mollis consequat,2,-10"] 0 2
    (by decide) (by decide) (by decide) (Or.inr rfl) (by decide)
    (Or.inr ⟨-10, by decide, by decide⟩)

/-- C9: a body row with more than 3 cells receives no ROW error (the length
check only fires on fewer cells); the row check only inspects the first 3
cells, and `parseLine` maps only cells 0..2 onto the item's keys, silently
ignoring the extras. -/
theorem validate_extra_cells_ignored :
    (∀ (contents hl line : String) (body : List String) (i : Nat),
      nonEmptyLines contents = hl :: body →
      body[i]? = some line →
      3 < ((jsSplit ',' line).map jsTrim).length →
      ∃ errs, validate contents = some errs ∧
        ∀ e ∈ errs, ¬(e.type = ErrorType.ROW ∧ e.row = i + 1)) ∧
    (∀ (r : Nat) (cells : List String), 3 < cells.length →
      rowCheckCells r cells = rowCheckCells r (cells.take 3) ∧
      parseLineCells cells = parseLineCells (cells.take 3)) := by
  constructor
  · intro contents hl line body i hsplit hline hlong
    refine ⟨_, validate_eq hsplit, ?_⟩
    rintro e he ⟨htype, hrow⟩
    rcases List.mem_append.mp he with hh | hb
    · have hht := (mem_headerErrors hh).1
      rw [htype] at hht
      exact absurd hht (by decide)
    · obtain ⟨k, l, hk, hkmem⟩ := mem_bodyErrors.mp hb
      have hrowk := mem_rowCheck hkmem
      have hki : k = i := by omega
      subst hki
      obtain rfl := Option.some.inj (hk.symm.trans hline)
      have hct := rowCheck_type_of_long
        (by simp [schemaColumns] at hlong ⊢; omega) hkmem
      rw [htype] at hct
      exact absurd hct (by decide)
  · intro r cells hlong
    have h0 : (cells.take 3)[0]? = cells[0]? := List.getElem?_take_of_lt (by omega)
    have h1 : (cells.take 3)[1]? = cells[1]? := List.getElem?_take_of_lt (by omega)
    have h2 : (cells.take 3)[2]? = cells[2]? := List.getElem?_take_of_lt (by omega)
    constructor
    · unfold rowCheckCells
      rw [if_neg (by simp [schemaColumns]; omega),
        if_neg (by simp [schemaColumns, List.length_take]; omega)]
      simp [cellCheck, forEachIdx, schemaColumns, h0, h1, h2]
    · simp [parseLineCells, h0, h1, h2]

/-- C9 witness: a 4-cell row gets no ROW error, and its checks and parse
agree with the row truncated to its first 3 cells. -/
theorem validate_extra_cells_ignored_witness :
    (∃ errs, validate "Product name,Price,Quantity\na,1,2,3" = some errs ∧
      ∀ e ∈ errs, ¬(e.type = ErrorType.ROW ∧ e.row = 0 + 1)) ∧
    rowCheckCells 1 ["a", "1", "2", "3"]
      = rowCheckCells 1 (["a", "1", "2", "3"].take 3) ∧
    parseLineCells ["a", "1", "2", "3"]
      = parseLineCells (["a", "1", "2", "3"].take 3) :=
  ⟨validate_extra_cells_ignored.1 "Product name,Price,Quantity\na,1,2,3"
      "Product name,Price,Quantity" "a,1,2,3" ["a,1,2,3"] 0
      (by decide) (by decide) (by decide),
    validate_extra_cells_ignored.2 1 ["a", "1", "2", "3"] (by decide)⟩

/-- C10: a POSITIVE_NUMBER cell whose trimmed content is `"0"` or empty
draws no error: the coercion maps the empty string to 0 and the check only
rejects NaN or strictly negative values, so zero-valued and blank
price/quantity cells are accepted despite the positive-number naming. -/
theorem validate_zero_blank_accepted :
    jsNumber "" = some 0 ∧ jsNumber "0" = some 0 ∧
    (∀ (contents hl line : String) (body : List String) (i j : Nat),
      nonEmptyLines contents = hl :: body →
      body[i]? = some line →
      3 ≤ ((jsSplit ',' line).map jsTrim).length →
      (j = 1 ∨ j = 2) →
      (((jsSplit ',' line).map jsTrim)[j]? = some "0" ∨
        ((jsSplit ',' line).map jsTrim)[j]? = some "") →
      ∃ errs, validate contents = some errs ∧
        ∀ e ∈ errs, ¬(e.row = i + 1 ∧ e.column = (j : Int))) := by
  refine ⟨by decide, by decide, ?_⟩
  intro contents hl line body i j hsplit hline hlen hj hcell
  refine ⟨_, validate_eq hsplit, ?_⟩
  rintro e he ⟨hrow, hcol⟩
  rcases List.mem_append.mp he with hh | hb
  · have h0 := (mem_headerErrors hh).2
    omega
  · obtain ⟨k, l, hk, hkmem⟩ := mem_bodyErrors.mp hb
    have hrowk := mem_rowCheck hkmem
    have hki : k = i := by omega
    subst hki
    obtain rfl := Option.some.inj (hk.symm.trans hline)
    unfold rowCheck rowCheckCells at hkmem
    rw [if_neg (by simp [schemaColumns] at hlen ⊢; omega)] at hkmem
    obtain ⟨j2, col2, hcol2, hcc⟩ := mem_cellCheck.mp hkmem
    obtain ⟨-, -, hcolj⟩ := mem_checkCell hcc
    have hj2 : j2 = j := by
      rw [hcolj] at hcol
      exact_mod_cast hcol
    subst hj2
    rcases hj with rfl | rfl
    · have hc2 : col2 = ⟨"Price", "price", ColumnType.NUMBER_POSITIVE⟩ := by
        have : schemaColumns[1]?
            = some (⟨"Price", "price", ColumnType.NUMBER_POSITIVE⟩ : Column) := by
          decide
        rw [this] at hcol2
        exact (Option.some.inj hcol2).symm
      subst hc2
      rcases hcell with hc | hc
      · rw [hc, Option.getD_some,
          checkCell_number_ok rfl (show jsNumber "0" = some 0 from by decide)
            (by decide)] at hcc
        simp at hcc
      · rw [hc, Option.getD_some,
          checkCell_number_ok rfl (show jsNumber "" = some 0 from by decide)
            (by decide)] at hcc
        simp at hcc
    · have hc2 : col2 = ⟨"Quantity", "quantity", ColumnType.NUMBER_POSITIVE⟩ := by
        have : schemaColumns[2]?
            = some (⟨"Quantity", "quantity", ColumnType.NUMBER_POSITIVE⟩ : Column) := by
          decide
        rw [this] at hcol2
        exact (Option.some.inj hcol2).symm
      subst hc2
      rcases hcell with hc | hc
      · rw [hc, Option.getD_some,
          checkCell_number_ok rfl (show jsNumber "0" = some 0 from by decide)
            (by decide)] at hcc
        simp at hcc
      · rw [hc, Option.getD_some,
          checkCell_number_ok rfl (show jsNumber "" = some 0 from by decide)
            (by decide)] at hcc
        simp at hcc

/-- C10 witness: a `0` price cell draws no error at its position. -/
theorem validate_zero_blank_accepted_witness :
    ∃ errs, validate "Product name,Price,Quantity\na,0,2" = some errs ∧
      ∀ e ∈ errs, ¬(e.row = 0 + 1 ∧ e.column = ((1 : Nat) : Int)) :=
  validate_zero_blank_accepted.2.2 "Product name,Price,Quantity\na,0,2"
    "Product name,Price,Quantity" "a,0,2" ["a,0,2"] 0 1
    (by decide) (by decide) (by decide) (Or.inl rfl) (Or.inl (by decide))

/-- Sanity checks of the `Number(string)` model on representative inputs. -/
theorem jsNumber_eval_checks :
    jsNumber "9.00" = some 9 ∧ jsNumber "" = some 0 ∧
    jsNumber "-10" = some (-10) ∧ jsNumber "abc" = none ∧
    jsNumber "1e2" = some 100 ∧ jsNumber ".5" = some (mkRat 1 2) :=
  ⟨by decide, by decide, by decide, by decide, by decide, by decide⟩
